import Mathlib

/-!
# WealthTrackr backend: verification of the account/transaction subsystem

A shallow embedding of the WealthTrackr backend's repository and service layer
(SQLAlchemy + FastAPI, Python) into Lean 4, together with proofs about its
balance-reconciliation, filtering, searching and report-aggregation logic.

Modelling conventions:
* Monetary amounts, dates and timestamps are rationals (`ℚ`). A date/time value
  is measured in days since the civil epoch 1970-01-01; the fractional part is
  the time of day. `daysFromCivil` models Python `datetime` date arithmetic
  (the standard civil-calendar day-numbering algorithm).
* The database is a `DB` record holding the account rows and transaction rows.
  `reconcileLog` is a ghost field recording, in order, every invocation of
  `BalanceService.update_account_balance` (one entry per call, the account id
  it was called for); the real code has no such log, it is instrumentation used
  to state claims about how often reconciliation runs.
* `uuid4` fresh-id generation is modelled by the counter `nextId`.
* Fallible Python code (raised `ValueError`s) is modelled with `Except String`.
* Python dictionaries used as patch/filter payloads ("key present" versus
  "key absent") are modelled as structures of `Option` fields.
-/

namespace WealthTrackr

/-- A row of the `transactions` table
(`src/backend/database/models/transaction.py`). `payee` and `category` are
nullable columns. -/
structure Transaction where
  id : String
  account_id : String
  date : ℚ
  amount : ℚ
  payee : Option String
  description : String
  category : Option String
  is_income : Bool
  is_reconciled : Bool
  created_at : ℚ
  updated_at : ℚ
deriving DecidableEq, Repr

/-- A row of the `accounts` table (`src/backend/database/models/account.py`). -/
structure Account where
  id : String
  name : String
  type_id : String
  institution_id : String
  balance : ℚ
  currency : String
  is_active : Bool
  notes : Option String
  created_at : ℚ
  updated_at : ℚ
deriving DecidableEq, Repr

/-- The persistent store, plus the ghost `reconcileLog` instrumentation and the
`nextId` counter modelling fresh uuid generation. -/
structure DB where
  accounts : List Account
  transactions : List Transaction
  reconcileLog : List String
  nextId : Nat
deriving DecidableEq, Repr

/-- Day number of a civil date (days since 1970-01-01), the standard
civil-from-days algorithm; models Python `datetime` date arithmetic:
`datetime(y, m, d) - datetime(1970, 1, 1)` in days. -/
def daysFromCivil (y m d : Int) : Int :=
  let y1 := y - (if m ≤ 2 then 1 else 0)
  let era := Int.fdiv y1 400
  let yoe := y1 - era * 400
  let mp := m + (if 2 < m then (-3 : Int) else 9)
  let doy := Int.fdiv (153 * mp + 2) 5 + d - 1
  let doe := yoe * 365 + Int.fdiv yoe 4 - Int.fdiv yoe 100 + doy
  era * 146097 + doe - 719468

/-- Sum of the amounts of the transactions belonging to account `aid`. -/
def sumFor (txs : List Transaction) (aid : String) : ℚ :=
  ((txs.filter (fun t => t.account_id == aid)).map (fun t => t.amount)).sum

/-- `BalanceService.update_account_balance`
(`src/backend/service/balance_service.py` lines 17-45): raises if the account
does not exist, otherwise recomputes the account's balance as the sum of its
transactions, persists it, and returns the new value. Appends the account id
to the ghost reconciliation log. -/
def update_account_balance (s : DB) (aid : String) : Except String (ℚ × DB) :=
  if s.accounts.any (fun a => a.id == aid) then
    let b := sumFor s.transactions aid
    .ok (b, { s with
      accounts := s.accounts.map (fun a => if a.id == aid then { a with balance := b } else a),
      reconcileLog := s.reconcileLog ++ [aid] })
  else .error ("Account with ID " ++ aid ++ " not found")

/-- Payload for `TransactionRepository.create_transaction`. `none` in an
optional field means the key is absent from the Python dict. -/
structure TransactionData where
  account_id : String
  date : ℚ
  amount : ℚ
  description : Option String := none
  category : Option String := none
  payee : Option String := none
  is_reconciled : Option Bool := none
deriving DecidableEq, Repr

/-- The row built by `TransactionRepository.create_transaction`
(`src/backend/database/repositories/transaction_repository.py` lines 115-135):
a fresh id, `is_income = amount > 0`, defaulted description and category,
payee / is_reconciled applied only when supplied. -/
def newTx (now : ℚ) (s : DB) (td : TransactionData) : Transaction :=
  { id := "tx-" ++ toString s.nextId
    account_id := td.account_id
    date := td.date
    amount := td.amount
    description := td.description.getD ""
    category := some (td.category.getD "")
    is_income := decide (0 < td.amount)
    payee := td.payee
    is_reconciled := td.is_reconciled.getD false
    created_at := now
    updated_at := now }

/-- `TransactionRepository.create_transaction`
(`src/backend/database/repositories/transaction_repository.py` lines 105-145):
inserts the new row, then reconciles the transaction's account. -/
def create_transaction (now : ℚ) (s : DB) (td : TransactionData) :
    Except String (Transaction × DB) :=
  let t : Transaction := newTx now s td
  let s1 := { s with transactions := s.transactions ++ [t], nextId := s.nextId + 1 }
  match update_account_balance s1 td.account_id with
  | .ok (_, s2) => .ok (t, s2)
  | .error e => .error e

/-- Payload for `TransactionRepository.update_transaction`; `none` means the
key is absent from the Python dict (the router strips `None` values). -/
structure TransactionPatch where
  account_id : Option String := none
  date : Option ℚ := none
  amount : Option ℚ := none
  description : Option String := none
  category : Option String := none
  payee : Option String := none
  is_reconciled : Option Bool := none
deriving DecidableEq, Repr

/-- `TransactionRepository.get_transaction_by_id` (lines 39-51). -/
def get_transaction_by_id (s : DB) (tid : String) : Option Transaction :=
  s.transactions.find? (fun t => t.id == tid)

/-- The field-by-field mutation performed by
`TransactionRepository.update_transaction` on the fetched row: only keys
present in the payload are applied, `is_income` is recomputed when `amount` is
updated, and `updated_at` is refreshed. -/
def applyTransactionPatch (p : TransactionPatch) (now : ℚ) (t : Transaction) : Transaction :=
  { t with
    account_id := p.account_id.getD t.account_id
    date := p.date.getD t.date
    amount := p.amount.getD t.amount
    is_income := match p.amount with | some m => decide (0 < m) | none => t.is_income
    description := p.description.getD t.description
    category := match p.category with | some c => some c | none => t.category
    payee := match p.payee with | some v => some v | none => t.payee
    is_reconciled := p.is_reconciled.getD t.is_reconciled
    updated_at := now }

/-- `TransactionRepository.update_transaction` (lines 147-194): returns `none`
(no mutation) when the id does not resolve; otherwise patches the row, commits,
reconciles `transaction.account_id` (the row's NEW account), and then — only if
the payload's `account_id` differs from the row's (already updated) account id —
reconciles the payload's account as well. -/
def update_transaction (now : ℚ) (s : DB) (tid : String) (p : TransactionPatch) :
    Except String (Option Transaction × DB) :=
  match get_transaction_by_id s tid with
  | none => .ok (none, s)
  | some t =>
    let t1 := applyTransactionPatch p now t
    let s1 := { s with
      transactions := s.transactions.map (fun u => if u.id == tid then t1 else u) }
    match update_account_balance s1 t1.account_id with
    | .error e => .error e
    | .ok (_, s2) =>
      match p.account_id with
      | none => .ok (some t1, s2)
      | some a =>
        if a == t1.account_id then .ok (some t1, s2)
        else
          match update_account_balance s2 a with
          | .error e => .error e
          | .ok (_, s3) => .ok (some t1, s3)

/-- `TransactionRepository.delete_transaction` (lines 196-220): returns `false`
(no mutation) when the id does not resolve; otherwise removes the row and
reconciles the removed transaction's account. -/
def delete_transaction (s : DB) (tid : String) : Except String (Bool × DB) :=
  match get_transaction_by_id s tid with
  | none => .ok (false, s)
  | some t =>
    let s1 := { s with transactions := s.transactions.filter (fun u => u.id != tid) }
    match update_account_balance s1 t.account_id with
    | .ok (_, s2) => .ok (true, s2)
    | .error e => .error e

/-- The creation loop of `TransactionRepository.import_transactions`
(lines 232-238): applies `create_transaction` to every item, collecting the
created rows and the set of affected account ids (first-occurrence order). -/
def importLoop (now : ℚ) : DB → List TransactionData → List Transaction → List String →
    Except String (List Transaction × List String × DB)
  | s, [], created, affected => .ok (created, affected, s)
  | s, td :: rest, created, affected =>
    match create_transaction now s td with
    | .error e => .error e
    | .ok (t, s1) =>
      let affected1 :=
        if affected.contains t.account_id then affected else affected ++ [t.account_id]
      importLoop now s1 rest (created ++ [t]) affected1

/-- The trailing reconciliation loop of
`TransactionRepository.import_transactions` (lines 240-243): reconciles each
affected account. -/
def reconcileAll : DB → List String → Except String DB
  | s, [] => .ok s
  | s, aid :: rest =>
    match update_account_balance s aid with
    | .error e => .error e
    | .ok (_, s1) => reconcileAll s1 rest

/-- `TransactionRepository.import_transactions` (lines 222-245). -/
def import_transactions (now : ℚ) (s : DB) (tds : List TransactionData) :
    Except String (List Transaction × DB) :=
  match importLoop now s tds [] [] with
  | .error e => .error e
  | .ok (created, affected, s1) =>
    match reconcileAll s1 affected with
    | .error e => .error e
    | .ok s2 => .ok (created, s2)

/-- Filter criteria for `TransactionRepository.filter_transactions`; `none`
means the key is absent from the filters dict. -/
structure TransactionFilter where
  account_id : Option String := none
  category : Option String := none
  start_date : Option ℚ := none
  end_date : Option ℚ := none
  min_amount : Option ℚ := none
  max_amount : Option ℚ := none
  is_reconciled : Option Bool := none
deriving DecidableEq, Repr

/-- "if key in filters: apply the predicate" — absence of a key constrains
nothing. -/
def optCheck {β : Type} : Option β → (β → Bool) → Bool
  | none, _ => true
  | some v, p => p v

/-- The conjunction of predicates applied by
`TransactionRepository.filter_transactions` (lines 67-103). -/
def matchesFilter (f : TransactionFilter) (t : Transaction) : Bool :=
  optCheck f.account_id (fun v => t.account_id == v) &&
  optCheck f.category (fun v => t.category == some v) &&
  optCheck f.start_date (fun v => decide (v ≤ t.date)) &&
  optCheck f.end_date (fun v => decide (t.date ≤ v)) &&
  optCheck f.min_amount (fun v => decide (v ≤ t.amount)) &&
  optCheck f.max_amount (fun v => decide (t.amount ≤ v)) &&
  optCheck f.is_reconciled (fun v => t.is_reconciled == v)

/-- Insert `x` into a list kept in descending `key` order (stable: among equal
keys the inserted element goes first, matching a stable descending sort built
by a right fold). -/
def insertDesc {α : Type} (key : α → ℚ) (x : α) : List α → List α
  | [] => [x]
  | y :: ys => if key x < key y then y :: insertDesc key x ys else x :: y :: ys

/-- Stable sort into descending `key` order; models `ORDER BY ... DESC` /
Python `list.sort(key=..., reverse=True)`. -/
def sortDesc {α : Type} (key : α → ℚ) (l : List α) : List α :=
  l.foldr (insertDesc key) []

/-- `TransactionRepository.filter_transactions` (lines 67-103): AND of the
supplied predicates, ordered by date descending. -/
def filter_transactions (s : DB) (f : TransactionFilter) : List Transaction :=
  sortDesc (fun t => t.date) (s.transactions.filter (matchesFilter f))

/-- SQL `LIKE` pattern matching on character lists (pattern first): `%` matches
any sequence, `_` matches any single character, anything else is literal. -/
def likeMatch (p s : List Char) : Bool :=
  match p, s with
  | [], [] => true
  | [], _ :: _ => false
  | p0 :: pr, [] => if p0 == '%' then likeMatch pr [] else false
  | p0 :: pr, c :: sr =>
    if p0 == '%' then likeMatch pr (c :: sr) || likeMatch (p0 :: pr) sr
    else (p0 == '_' || p0 == c) && likeMatch pr sr
termination_by (s.length, p.length)

/-- Lower-cased character list of a string (ASCII case folding, as in SQL
`ILIKE`). -/
def lowerStr (s : String) : List Char :=
  s.data.map Char.toLower

/-- SQLAlchemy `column.ilike(pattern)`: case-insensitive `LIKE`. -/
def ilike (s pat : String) : Bool :=
  likeMatch (lowerStr pat) (lowerStr s)

/-- `TransactionRepository.search_transactions` (lines 247-271): rows whose
description, category or payee matches `ILIKE '%query%'` (OR across the three
fields; a NULL column never matches), ordered by date descending. -/
def search_transactions (s : DB) (q : String) : List Transaction :=
  let pat := "%" ++ q ++ "%"
  sortDesc (fun t => t.date)
    (s.transactions.filter (fun t =>
      ilike t.description pat ||
      (match t.category with | some c => ilike c pat | none => false) ||
      (match t.payee with | some v => ilike v pat | none => false)))

/-- Payload for `AccountRepository.update_account`; `none` means the key is
absent from the Python dict. -/
structure AccountPatch where
  name : Option String := none
  type : Option String := none
  institution : Option String := none
  balance : Option ℚ := none
  currency : Option String := none
  is_active : Option Bool := none
  notes : Option String := none
deriving DecidableEq, Repr

/-- `AccountRepository.get_account_by_id` (lines 36-49). -/
def get_account_by_id (s : DB) (aid : String) : Option Account :=
  s.accounts.find? (fun a => a.id == aid)

/-- The field-by-field mutation performed by `AccountRepository.update_account`
on the fetched row: only keys present in the payload are applied, and
`updated_at` is always refreshed. -/
def applyAccountPatch (p : AccountPatch) (now : ℚ) (a : Account) : Account :=
  { a with
    name := p.name.getD a.name
    type_id := p.type.getD a.type_id
    institution_id := p.institution.getD a.institution_id
    balance := p.balance.getD a.balance
    currency := p.currency.getD a.currency
    is_active := p.is_active.getD a.is_active
    notes := match p.notes with | some v => some v | none => a.notes
    updated_at := now }

/-- `AccountRepository.update_account` (lines 120-156): returns `none` (no
mutation) when the id does not resolve; otherwise applies exactly the supplied
keys, refreshes `updated_at`, commits and returns the updated row. -/
def update_account (now : ℚ) (s : DB) (aid : String) (p : AccountPatch) :
    Option Account × DB :=
  match get_account_by_id s aid with
  | none => (none, s)
  | some _ =>
    let s1 := { s with
      accounts := s.accounts.map (fun a => if a.id == aid then applyAccountPatch p now a else a) }
    (get_account_by_id s1 aid, s1)

/-- `AccountRepository.get_total_balance` (lines 195-206): unweighted sum of
all account balances. -/
def get_total_balance (s : DB) : ℚ :=
  (s.accounts.map (fun a => a.balance)).sum

/-- `AccountRepository.get_net_worth` (lines 208-222): sum of positive balances
minus sum of absolute values of negative balances. -/
def get_net_worth (s : DB) : ℚ :=
  ((s.accounts.filter (fun a => decide (0 < a.balance))).map (fun a => a.balance)).sum -
  ((s.accounts.filter (fun a => decide (a.balance < 0))).map (fun a => |a.balance|)).sum

/-- An HTTP error response raised by a router (`fastapi.HTTPException`). -/
structure HTTPError where
  status : Nat
  detail : String
deriving DecidableEq, Repr

/-- `GET /api/transactions/\x7btransaction_id\x7d`
(`src/backend/api/transaction_router_db.py` lines 85-106): 404 with detail
"Transaction not found" when the id does not resolve. -/
def routeGetTransaction (s : DB) (tid : String) : Except HTTPError Transaction :=
  match get_transaction_by_id s tid with
  | none => .error { status := 404, detail := "Transaction not found" }
  | some t => .ok t

/-- `PUT /api/transactions/\x7btransaction_id\x7d` (lines 138-164): a `none`
service result becomes a 404; an uncaught service exception surfaces as a 500. -/
def routeUpdateTransaction (now : ℚ) (s : DB) (tid : String) (p : TransactionPatch) :
    Except HTTPError (Transaction × DB) :=
  match update_transaction now s tid p with
  | .error e => .error { status := 500, detail := e }
  | .ok (none, _) => .error { status := 404, detail := "Transaction not found" }
  | .ok (some t, s1) => .ok (t, s1)

/-- `DELETE /api/transactions/\x7btransaction_id\x7d` (lines 166-182): a
`false` service result becomes a 404. -/
def routeDeleteTransaction (s : DB) (tid : String) : Except HTTPError DB :=
  match delete_transaction s tid with
  | .error e => .error { status := 500, detail := e }
  | .ok (false, _) => .error { status := 404, detail := "Transaction not found" }
  | .ok (true, s1) => .ok s1

/-- Python `round(q, 2)` on an exact decimal value: round to 2 decimal places.
(Python rounds floats half-to-even; on the cent-valued amounts the claims are
about, no half-way case arises and the two conventions agree.) -/
def round2 (q : ℚ) : ℚ :=
  ((round (q * 100) : ℤ) : ℚ) / 100

/-- One entry of a report's category ranking
(`\x7b"category": ..., "amount": ..., "percentage": ...\x7d`). -/
structure CategoryEntry where
  category : String
  amount : ℚ
  percentage : ℚ
deriving DecidableEq, Repr

/-- The record returned by `ReportsService.get_monthly_summary`. -/
structure MonthlySummary where
  year : Int
  month : Int
  income : ℚ
  expenses : ℚ
  net_change : ℚ
  top_income_categories : List CategoryEntry
  top_expense_categories : List CategoryEntry
deriving DecidableEq, Repr

/-- `defaultdict(float)` accumulation keyed by category, preserving
first-occurrence order (Python dicts preserve insertion order). -/
def addToBucket (bs : List (String × ℚ)) (k : String) (v : ℚ) : List (String × ℚ) :=
  if bs.any (fun p => p.1 == k) then
    bs.map (fun p => if p.1 == k then (p.1, p.2 + v) else p)
  else bs ++ [(k, v)]

/-- Python `transaction.category or "Uncategorized"`: a NULL or empty category
falls back to "Uncategorized". -/
def bucketKey (t : Transaction) : String :=
  match t.category with
  | none => "Uncategorized"
  | some c => if c == "" then "Uncategorized" else c

/-- The accumulation loop of `ReportsService.get_monthly_summary`
(`src/backend/service/reports_service.py` lines 189-197): positive amounts are
income, everything else is an expense of `abs(amount)`, bucketed by category. -/
def sumLoop : (ℚ × ℚ × List (String × ℚ) × List (String × ℚ)) → List Transaction →
    ℚ × ℚ × List (String × ℚ) × List (String × ℚ)
  | acc, [] => acc
  | (inc, exp, ib, eb), t :: rest =>
    if 0 < t.amount then
      sumLoop (inc + t.amount, exp, addToBucket ib (bucketKey t) t.amount, eb) rest
    else
      sumLoop (inc, exp + |t.amount|, ib, addToBucket eb (bucketKey t) |t.amount|) rest

/-- Turns a category bucket into report entries (lines 203-219): rounded
amount, percentage of the (unrounded) side total, 0 when the total is not
positive. -/
def mkEntries (total : ℚ) (bs : List (String × ℚ)) : List CategoryEntry :=
  bs.map (fun p =>
    { category := p.1
      amount := round2 p.2
      percentage := if 0 < total then round2 (p.2 / total * 100) else 0 })

/-- The record built by the `try` block of
`ReportsService.get_monthly_summary` when no error occurs (lines 172-237):
filter the month's window (first of the month at midnight through
`datetime(year, month+1, 1) - timedelta(days=1)`, i.e. MIDNIGHT on the last
day), accumulate income/expense totals and category buckets, round, rank and
take the top 5 per side. -/
def monthSummaryBody (y m : Int) (accFilter : Option String) (s : DB) : MonthlySummary :=
  let startD : ℚ := ((daysFromCivil y m 1 : ℤ) : ℚ)
  let ey : Int := if m = 12 then y + 1 else y
  let em : Int := if m = 12 then 1 else m + 1
  let endD : ℚ := ((daysFromCivil ey em 1 : ℤ) : ℚ) - 1
  let txs := filter_transactions s
    { account_id := accFilter, start_date := some startD, end_date := some endD }
  let r := sumLoop (0, 0, [], []) txs
  let inc := r.1
  let exp := r.2.1
  let topInc := (sortDesc (fun e => e.amount) (mkEntries inc r.2.2.1)).take 5
  let topExp := (sortDesc (fun e => e.amount) (mkEntries exp r.2.2.2)).take 5
  { year := y, month := m
    income := round2 inc
    expenses := round2 exp
    net_change := round2 (inc - exp)
    top_income_categories := topInc
    top_expense_categories := topExp }

/-- The `try` block of `ReportsService.get_monthly_summary` (lines 164-237).
The guards model the `ValueError`s Python `datetime` raises for an
out-of-range year or month (`datetime.MINYEAR = 1`, `datetime.MAXYEAR = 9999`);
note `month == 12` needs `datetime(year+1, 1, 1)` to be constructible. -/
def monthlySummaryCore (y m : Int) (accFilter : Option String) (s : DB) :
    Except String MonthlySummary :=
  if 1 ≤ y ∧ y ≤ 9999 ∧ 1 ≤ m ∧ m ≤ 12 then
    if (if m = 12 then y + 1 else y) ≤ 9999 then
      .ok (monthSummaryBody y m accFilter s)
    else .error "year is out of range"
  else .error "month must be in 1..12 and year in 1..9999"

/-- `ReportsService.get_monthly_summary` (lines 152-249): any error inside the
`try` block is caught and turned into a defaulted summary echoing the requested
year and month. -/
def get_monthly_summary (y m : Int) (accFilter : Option String) (s : DB) : MonthlySummary :=
  match monthlySummaryCore y m accFilter s with
  | .ok r => r
  | .error _ =>
    { year := y, month := m, income := 0, expenses := 0, net_change := 0
      top_income_categories := [], top_expense_categories := [] }

/-! ## General lemmas about the sorting helper -/

theorem insertDesc_perm {α : Type} (key : α → ℚ) (x : α) (l : List α) :
    List.Perm (insertDesc key x l) (x :: l) := by
  induction l with
  | nil => simp [insertDesc]
  | cons y ys ih =>
    by_cases h : key x < key y
    · rw [insertDesc, if_pos h]
      exact (ih.cons y).trans (List.Perm.swap x y ys)
    · rw [insertDesc, if_neg h]

theorem sortDesc_perm {α : Type} (key : α → ℚ) (l : List α) :
    List.Perm (sortDesc key l) l := by
  induction l with
  | nil => simp [sortDesc]
  | cons y ys ih =>
    exact (insertDesc_perm key y (sortDesc key ys)).trans (ih.cons y)

theorem mem_sortDesc {α : Type} {key : α → ℚ} {x : α} {l : List α} :
    x ∈ sortDesc key l ↔ x ∈ l :=
  (sortDesc_perm key l).mem_iff

theorem pairwise_insertDesc {α : Type} {key : α → ℚ} {x : α} {l : List α}
    (h : l.Pairwise (fun a b => key b ≤ key a)) :
    (insertDesc key x l).Pairwise (fun a b => key b ≤ key a) := by
  induction l with
  | nil => simp [insertDesc]
  | cons y ys ih =>
    rcases List.pairwise_cons.mp h with ⟨hy, hys⟩
    by_cases hxy : key x < key y
    · rw [insertDesc, if_pos hxy]
      refine List.pairwise_cons.mpr ⟨?_, ih hys⟩
      intro z hz
      rcases List.mem_cons.mp ((insertDesc_perm key x ys).mem_iff.mp hz) with hz1 | hz1
      · exact hz1 ▸ le_of_lt hxy
      · exact hy z hz1
    · rw [insertDesc, if_neg hxy]
      refine List.pairwise_cons.mpr ⟨?_, h⟩
      intro z hz
      rcases List.mem_cons.mp hz with hz1 | hz1
      · exact hz1 ▸ le_of_not_lt hxy
      · exact le_trans (hy z hz1) (le_of_not_lt hxy)

theorem pairwise_sortDesc {α : Type} (key : α → ℚ) (l : List α) :
    (sortDesc key l).Pairwise (fun a b => key b ≤ key a) := by
  induction l with
  | nil => simp [sortDesc]
  | cons y ys ih => exact pairwise_insertDesc ih

/-! ## The filter predicate, characterized -/

theorem optCheck_iff {β : Type} {o : Option β} {p : β → Bool} :
    optCheck o p = true ↔ ∀ v, o = some v → p v = true := by
  cases o <;> simp [optCheck]

theorem matchesFilter_iff {f : TransactionFilter} {t : Transaction} :
    matchesFilter f t = true ↔
      (∀ v, f.account_id = some v → t.account_id = v) ∧
      (∀ v, f.category = some v → t.category = some v) ∧
      (∀ v, f.start_date = some v → v ≤ t.date) ∧
      (∀ v, f.end_date = some v → t.date ≤ v) ∧
      (∀ v, f.min_amount = some v → v ≤ t.amount) ∧
      (∀ v, f.max_amount = some v → t.amount ≤ v) ∧
      (∀ v, f.is_reconciled = some v → t.is_reconciled = v) := by
  simp only [matchesFilter, Bool.and_eq_true, optCheck_iff, beq_iff_eq,
    decide_eq_true_eq]
  tauto

theorem mem_filter_transactions {s : DB} {f : TransactionFilter} {t : Transaction} :
    t ∈ filter_transactions s f ↔ t ∈ s.transactions ∧ matchesFilter f t = true := by
  rw [filter_transactions, mem_sortDesc, List.mem_filter]

/-! ## Concrete rows used by witnesses and counterexamples -/

/-- A sample account row. -/
def acct1 : Account :=
  { id := "acc-001", name := "Checking", type_id := "checking",
    institution_id := "inst-001", balance := 0, currency := "USD",
    is_active := true, notes := none, created_at := 0, updated_at := 0 }

/-- A second sample account row. -/
def acct2 : Account :=
  { acct1 with id := "acc-002", name := "Savings" }

/-- A sample transaction row. -/
def mkTx (i aid : String) (d amt : ℚ) : Transaction :=
  { id := i, account_id := aid, date := d, amount := amt, payee := none,
    description := "", category := some "", is_income := decide (0 < amt),
    is_reconciled := false, created_at := 0, updated_at := 0 }

/-! ## C1: balance reconciliation -/

/-- C1: for every existing account, `update_account_balance` sets the
account's stored balance to the arithmetic sum of the amounts of all
transactions currently belonging to that account (`sumFor`, which is 0 when
there are none), persists it, and returns that value. The state `s` is
universally quantified, so the conclusion holds in particular for any state
reached by a sequence of transaction create/update/delete/import operations:
after an explicit reconciliation the account's balance equals the sum of its
transactions' amounts. -/
theorem update_account_balance_spec (s : DB) (aid : String)
    (h : s.accounts.any (fun a => a.id == aid) = true) :
    ∃ s2, update_account_balance s aid = .ok (sumFor s.transactions aid, s2) ∧
      s2.transactions = s.transactions ∧
      ∀ a ∈ s2.accounts, a.id = aid → a.balance = sumFor s2.transactions aid := by
  refine ⟨{ s with
      accounts := s.accounts.map (fun a =>
        if a.id == aid then { a with balance := sumFor s.transactions aid } else a),
      reconcileLog := s.reconcileLog ++ [aid] }, ?_, rfl, ?_⟩
  · rw [update_account_balance, if_pos h]
  · intro a ha haid
    simp only [List.mem_map] at ha
    rcases ha with ⟨a0, _, rfl⟩
    by_cases h0 : a0.id == aid
    · simp [h0]
    · simp only [if_neg h0] at haid
      exact absurd haid (by simpa using h0)

/-- Witness for C1: an account with transactions of amounts 10 and -3 is
reconciled to balance 7. -/
theorem update_account_balance_spec_witness :
    (DB.mk [{ acct1 with balance := 5 }]
      [mkTx "t-1" "acc-001" 0 10, mkTx "t-2" "acc-001" 1 (-3)] [] 0).accounts.any
        (fun a => a.id == "acc-001") = true ∧
    ∃ s2, update_account_balance
        (DB.mk [{ acct1 with balance := 5 }]
          [mkTx "t-1" "acc-001" 0 10, mkTx "t-2" "acc-001" 1 (-3)] [] 0) "acc-001" =
        .ok (sumFor (DB.mk [{ acct1 with balance := 5 }]
          [mkTx "t-1" "acc-001" 0 10, mkTx "t-2" "acc-001" 1 (-3)] [] 0).transactions
          "acc-001", s2) ∧
      s2.transactions = (DB.mk [{ acct1 with balance := 5 }]
          [mkTx "t-1" "acc-001" 0 10, mkTx "t-2" "acc-001" 1 (-3)] [] 0).transactions ∧
      ∀ a ∈ s2.accounts, a.id = "acc-001" → a.balance = sumFor s2.transactions "acc-001" :=
  ⟨by decide, update_account_balance_spec _ "acc-001" (by decide)⟩

/-! ## C4: net worth equals total balance -/

theorem assets_sub_liabilities (l : List Account) :
    ((l.filter (fun a => decide (0 < a.balance))).map (fun a => a.balance)).sum -
    ((l.filter (fun a => decide (a.balance < 0))).map (fun a => |a.balance|)).sum =
    (l.map (fun a => a.balance)).sum := by
  induction l with
  | nil => simp
  | cons a l ih =>
    rcases lt_trichotomy a.balance 0 with h | h | h
    · have h1 : ¬ (0 < a.balance) := by linarith
      simp only [List.filter_cons, List.map_cons, List.sum_cons,
        decide_eq_true_eq, h, h1, if_true, if_false, ite_false, ite_true,
        decide_eq_true_eq]
      rw [abs_of_neg h]
      linarith
    · simp [List.filter_cons, h, ← ih]
    · have h1 : ¬ (a.balance < 0) := by linarith
      simp only [List.filter_cons, List.map_cons, List.sum_cons,
        decide_eq_true_eq, h, h1, if_true, if_false, ite_false, ite_true]
      linarith

/-- C4: `get_net_worth` (sum of positive balances minus sum of absolute values
of negative balances) equals `get_total_balance` (the unweighted signed sum of
all account balances), for every set of accounts. -/
theorem net_worth_eq_total_balance (s : DB) :
    get_net_worth s = get_total_balance s := by
  rw [get_net_worth, get_total_balance]
  exact assets_sub_liabilities s.accounts

/-! ## C7: not-found semantics -/

/-- C7: when `tid` resolves to no stored transaction, `get` returns `none`,
`update` returns `none` with the state unchanged, `delete` returns `false`
with the state unchanged — none of them surfaces an error — and each of the
three HTTP routes answers 404 with detail "Transaction not found", which
contains "not found" case-insensitively. -/
theorem not_found_spec (now : ℚ) (s : DB) (tid : String) (p : TransactionPatch)
    (h : ∀ t ∈ s.transactions, t.id ≠ tid) :
    get_transaction_by_id s tid = none ∧
    update_transaction now s tid p = .ok (none, s) ∧
    delete_transaction s tid = .ok (false, s) ∧
    routeGetTransaction s tid = .error ⟨404, "Transaction not found"⟩ ∧
    routeUpdateTransaction now s tid p = .error ⟨404, "Transaction not found"⟩ ∧
    routeDeleteTransaction s tid = .error ⟨404, "Transaction not found"⟩ ∧
    lowerStr "not found" <:+: lowerStr "Transaction not found" := by
  have hget : get_transaction_by_id s tid = none := by
    rw [get_transaction_by_id, List.find?_eq_none]
    intro t ht
    simpa using h t ht
  refine ⟨hget, ?_, ?_, ?_, ?_, ?_, by decide⟩
  · rw [update_transaction, hget]
  · rw [delete_transaction, hget]
  · rw [routeGetTransaction, hget]
  · rw [routeUpdateTransaction, update_transaction, hget]
  · rw [routeDeleteTransaction, delete_transaction, hget]

/-- Witness for C7: the id "missing" resolves to nothing in a one-transaction
store; all not-found behaviours follow. -/
theorem not_found_spec_witness :
    (∀ t ∈ (DB.mk [acct1] [mkTx "t-1" "acc-001" 0 10] [] 0).transactions,
      t.id ≠ "missing") ∧
    (get_transaction_by_id (DB.mk [acct1] [mkTx "t-1" "acc-001" 0 10] [] 0) "missing" = none ∧
    update_transaction 2 (DB.mk [acct1] [mkTx "t-1" "acc-001" 0 10] [] 0) "missing"
        { amount := some 3 } =
      .ok (none, DB.mk [acct1] [mkTx "t-1" "acc-001" 0 10] [] 0) ∧
    delete_transaction (DB.mk [acct1] [mkTx "t-1" "acc-001" 0 10] [] 0) "missing" =
      .ok (false, DB.mk [acct1] [mkTx "t-1" "acc-001" 0 10] [] 0) ∧
    routeGetTransaction (DB.mk [acct1] [mkTx "t-1" "acc-001" 0 10] [] 0) "missing" =
      .error ⟨404, "Transaction not found"⟩ ∧
    routeUpdateTransaction 2 (DB.mk [acct1] [mkTx "t-1" "acc-001" 0 10] [] 0) "missing"
        { amount := some 3 } =
      .error ⟨404, "Transaction not found"⟩ ∧
    routeDeleteTransaction (DB.mk [acct1] [mkTx "t-1" "acc-001" 0 10] [] 0) "missing" =
      .error ⟨404, "Transaction not found"⟩ ∧
    lowerStr "not found" <:+: lowerStr "Transaction not found") :=
  ⟨by decide, not_found_spec 2 _ "missing" { amount := some 3 } (by decide)⟩

/-! ## C8: account partial update -/

theorem forall₂_map_self {α : Type} {R : α → α → Prop} {f : α → α} {l : List α}
    (h : ∀ a ∈ l, R a (f a)) : List.Forall₂ R l (l.map f) := by
  induction l with
  | nil => simp
  | cons a l ih =>
    exact List.Forall₂.cons (h a (List.mem_cons_self a l))
      (ih fun x hx => h x (List.mem_cons_of_mem a hx))

/-- The row-by-row relationship C8 asserts between the old and new account
tables: the account with the updated id gets exactly the supplied keys applied
and its `updated_at` refreshed (absent keys, `id` and `created_at` untouched);
every other account is unchanged. -/
def accountPatchRel (aid : String) (p : AccountPatch) (now : ℚ) (a b : Account) : Prop :=
  if a.id = aid then
    b.id = a.id ∧
    b.name = p.name.getD a.name ∧
    b.type_id = p.type.getD a.type_id ∧
    b.institution_id = p.institution.getD a.institution_id ∧
    b.balance = p.balance.getD a.balance ∧
    b.currency = p.currency.getD a.currency ∧
    b.is_active = p.is_active.getD a.is_active ∧
    b.notes = (match p.notes with | some v => some v | none => a.notes) ∧
    b.created_at = a.created_at ∧
    b.updated_at = now
  else b = a

/-- C8: for an existing account, `update_account` succeeds and rewrites the
account table row-by-row according to `accountPatchRel`: the matching account
has exactly the keys present in the payload applied and `updated_at`
refreshed, with absent keys and all other accounts (and the rest of the
store) left unchanged. -/
theorem update_account_spec (now : ℚ) (s : DB) (aid : String) (p : AccountPatch)
    (h : (get_account_by_id s aid).isSome = true) :
    ∃ a2 s2, update_account now s aid p = (some a2, s2) ∧
      s2.transactions = s.transactions ∧
      s2.reconcileLog = s.reconcileLog ∧
      List.Forall₂ (accountPatchRel aid p now) s.accounts s2.accounts := by
  obtain ⟨a, ha⟩ := Option.isSome_iff_exists.mp h
  have hmem : a ∈ s.accounts ∧ (a.id == aid) = true := by
    refine ⟨List.mem_of_find?_eq_some ha, ?_⟩
    have := List.find?_some ha
    simpa using this
  have hsome : (get_account_by_id
      { s with accounts := s.accounts.map (fun x =>
          if x.id == aid then applyAccountPatch p now x else x) } aid).isSome = true := by
    rw [get_account_by_id, List.find?_isSome]
    refine ⟨applyAccountPatch p now a, ?_, ?_⟩
    · rw [List.mem_map]
      exact ⟨a, hmem.1, by simp [hmem.2]⟩
    · simpa [applyAccountPatch] using hmem.2
  obtain ⟨a2, ha2⟩ := Option.isSome_iff_exists.mp hsome
  refine ⟨a2, { s with accounts := s.accounts.map (fun x =>
      if x.id == aid then applyAccountPatch p now x else x) }, ?_, rfl, rfl, ?_⟩
  · simp only [update_account, ha]
    rw [ha2]
  · refine forall₂_map_self ?_
    intro a0 _
    by_cases h0 : a0.id = aid
    · have hb : (a0.id == aid) = true := by simpa using h0
      rw [accountPatchRel, if_pos h0, hb]
      simp [applyAccountPatch]
    · have hb : (a0.id == aid) = false := by simpa using h0
      rw [accountPatchRel, if_neg h0, hb]
      simp

/-- Witness for C8: renaming account "acc-001" (payload with only `name` and
`balance`) patches exactly those fields of that account. -/
theorem update_account_spec_witness :
    (get_account_by_id (DB.mk [acct1, acct2] [] [] 0) "acc-001").isSome = true ∧
    ∃ a2 s2, update_account 7 (DB.mk [acct1, acct2] [] [] 0) "acc-001"
        { name := some "Renamed", balance := some 12 } = (some a2, s2) ∧
      s2.transactions = (DB.mk [acct1, acct2] [] [] 0).transactions ∧
      s2.reconcileLog = (DB.mk [acct1, acct2] [] [] 0).reconcileLog ∧
      List.Forall₂ (accountPatchRel "acc-001" { name := some "Renamed", balance := some 12 } 7)
        (DB.mk [acct1, acct2] [] [] 0).accounts s2.accounts :=
  ⟨by decide, update_account_spec 7 _ "acc-001" { name := some "Renamed", balance := some 12 }
    (by decide)⟩

/-! ## C5: conjunctive filtering -/

/-- The store of the spec's filtering example: transactions dated April 13, 14
and 15 of 2025 with amounts 500, -25 and -45.67. -/
def c5db : DB :=
  DB.mk [acct1]
    [mkTx "t-13" "acc-001" ((daysFromCivil 2025 4 13 : ℤ) : ℚ) 500,
     mkTx "t-14" "acc-001" ((daysFromCivil 2025 4 14 : ℤ) : ℚ) (-25),
     mkTx "t-15" "acc-001" ((daysFromCivil 2025 4 15 : ℤ) : ℚ) (-45.67)] [] 0

/-- The filter criteria of the spec's example. -/
def c5f : TransactionFilter :=
  { min_amount := some (-30), max_amount := some 0 }

/-- C5: `filter_transactions` returns exactly the transactions satisfying the
conjunction of the supplied predicates (absent keys constrain nothing), the
result is ordered by date descending, and on the spec's example
(`c5db`/`c5f`, amounts [500, -25, -45.67] filtered to [-30, 0]) it returns
exactly the April 14 transaction of amount -25. -/
theorem filter_transactions_correct (s : DB) (f : TransactionFilter) (t : Transaction) :
    (t ∈ filter_transactions s f ↔
      t ∈ s.transactions ∧
      (∀ v, f.account_id = some v → t.account_id = v) ∧
      (∀ v, f.category = some v → t.category = some v) ∧
      (∀ v, f.start_date = some v → v ≤ t.date) ∧
      (∀ v, f.end_date = some v → t.date ≤ v) ∧
      (∀ v, f.min_amount = some v → v ≤ t.amount) ∧
      (∀ v, f.max_amount = some v → t.amount ≤ v) ∧
      (∀ v, f.is_reconciled = some v → t.is_reconciled = v)) ∧
    (filter_transactions s f).Pairwise (fun a b => b.date ≤ a.date) ∧
    filter_transactions c5db c5f =
      [mkTx "t-14" "acc-001" ((daysFromCivil 2025 4 14 : ℤ) : ℚ) (-25)] := by
  refine ⟨?_, ?_, ?_⟩
  · rw [mem_filter_transactions, matchesFilter_iff]
  · exact pairwise_sortDesc _ _
  · norm_num [c5db, c5f, filter_transactions, matchesFilter, optCheck, mkTx,
      acct1, sortDesc, insertDesc, List.filter]

/-- Witness for C5, instantiated at the example store, example criteria and
the April 14 transaction. -/
theorem filter_transactions_correct_witness :
    (mkTx "t-14" "acc-001" ((daysFromCivil 2025 4 14 : ℤ) : ℚ) (-25) ∈
        filter_transactions c5db c5f ↔
      mkTx "t-14" "acc-001" ((daysFromCivil 2025 4 14 : ℤ) : ℚ) (-25) ∈ c5db.transactions ∧
      (∀ v, c5f.account_id = some v →
        (mkTx "t-14" "acc-001" ((daysFromCivil 2025 4 14 : ℤ) : ℚ) (-25)).account_id = v) ∧
      (∀ v, c5f.category = some v →
        (mkTx "t-14" "acc-001" ((daysFromCivil 2025 4 14 : ℤ) : ℚ) (-25)).category = some v) ∧
      (∀ v, c5f.start_date = some v →
        v ≤ (mkTx "t-14" "acc-001" ((daysFromCivil 2025 4 14 : ℤ) : ℚ) (-25)).date) ∧
      (∀ v, c5f.end_date = some v →
        (mkTx "t-14" "acc-001" ((daysFromCivil 2025 4 14 : ℤ) : ℚ) (-25)).date ≤ v) ∧
      (∀ v, c5f.min_amount = some v →
        v ≤ (mkTx "t-14" "acc-001" ((daysFromCivil 2025 4 14 : ℤ) : ℚ) (-25)).amount) ∧
      (∀ v, c5f.max_amount = some v →
        (mkTx "t-14" "acc-001" ((daysFromCivil 2025 4 14 : ℤ) : ℚ) (-25)).amount ≤ v) ∧
      (∀ v, c5f.is_reconciled = some v →
        (mkTx "t-14" "acc-001" ((daysFromCivil 2025 4 14 : ℤ) : ℚ) (-25)).is_reconciled = v)) ∧
    (filter_transactions c5db c5f).Pairwise (fun a b => b.date ≤ a.date) ∧
    filter_transactions c5db c5f =
      [mkTx "t-14" "acc-001" ((daysFromCivil 2025 4 14 : ℤ) : ℚ) (-25)] :=
  filter_transactions_correct c5db c5f
    (mkTx "t-14" "acc-001" ((daysFromCivil 2025 4 14 : ℤ) : ℚ) (-25))

/-! ## Plumbing for the reconciliation proofs -/

theorem uab_eq (s : DB) (aid : String)
    (h : s.accounts.any (fun a => a.id == aid) = true) :
    update_account_balance s aid = .ok (sumFor s.transactions aid,
      { s with
        accounts := s.accounts.map (fun a =>
          if a.id == aid then { a with balance := sumFor s.transactions aid } else a),
        reconcileLog := s.reconcileLog ++ [aid] }) := by
  rw [update_account_balance, if_pos h]

theorem any_id_congr {l1 l2 : List Account}
    (h : l1.map (fun a => a.id) = l2.map (fun a => a.id)) (x : String) :
    l1.any (fun a => a.id == x) = l2.any (fun a => a.id == x) := by
  have e : ∀ l : List Account,
      l.any (fun a => a.id == x) = (l.map (fun a => a.id)).any (fun i => i == x) := by
    intro l
    induction l with
    | nil => rfl
    | cons a l ih => simp [ih]
  rw [e, e, h]

theorem map_id_if_update (l : List Account) (c : Account → Bool) (g : Account → ℚ) :
    (l.map (fun a => if c a then { a with balance := g a } else a)).map (fun a => a.id) =
    l.map (fun a => a.id) := by
  rw [List.map_map]
  apply List.map_congr_left
  intro a _
  by_cases h : c a <;> simp [h, Function.comp]

theorem create_transaction_eq (now : ℚ) (s : DB) (td : TransactionData)
    (h : s.accounts.any (fun a => a.id == td.account_id) = true) :
    ∃ t s2, create_transaction now s td = .ok (t, s2) ∧
      t.account_id = td.account_id ∧
      s2.accounts.map (fun a => a.id) = s.accounts.map (fun a => a.id) ∧
      s2.transactions = s.transactions ++ [t] ∧
      s2.reconcileLog = s.reconcileLog ++ [td.account_id] ∧
      s2.nextId = s.nextId + 1 := by
  refine ⟨newTx now s td,
    { accounts := s.accounts.map (fun a =>
        if a.id == td.account_id then
          { a with balance := sumFor (s.transactions ++ [newTx now s td]) td.account_id }
        else a)
      transactions := s.transactions ++ [newTx now s td]
      reconcileLog := s.reconcileLog ++ [td.account_id]
      nextId := s.nextId + 1 }, ?_, rfl, ?_, rfl, rfl, rfl⟩
  · rw [create_transaction]
    rw [uab_eq { s with
      transactions := s.transactions ++ [newTx now s td], nextId := s.nextId + 1 }
      td.account_id h]
  · exact map_id_if_update _ _ _

theorem reconcileAll_spec (L : List String) :
    ∀ s : DB, (∀ aid ∈ L, s.accounts.any (fun a => a.id == aid) = true) →
    ∃ s2, reconcileAll s L = .ok s2 ∧
      s2.transactions = s.transactions ∧
      s2.nextId = s.nextId ∧
      s2.reconcileLog = s.reconcileLog ++ L ∧
      s2.accounts = s.accounts.map (fun a =>
        if a.id ∈ L then { a with balance := sumFor s.transactions a.id } else a) := by
  induction L with
  | nil =>
    intro s _
    exact ⟨s, rfl, rfl, rfl, by simp, by simp⟩
  | cons aid rest ih =>
    intro s h
    have h0 : s.accounts.any (fun a => a.id == aid) = true := h aid (List.mem_cons_self _ _)
    have hids : (s.accounts.map (fun a =>
        if a.id == aid then { a with balance := sumFor s.transactions aid } else a)).map
          (fun a => a.id) = s.accounts.map (fun a => a.id) :=
      map_id_if_update _ _ _
    have hrest : ∀ x ∈ rest,
        (({ s with
          accounts := s.accounts.map (fun a =>
            if a.id == aid then { a with balance := sumFor s.transactions aid } else a),
          reconcileLog := s.reconcileLog ++ [aid] } : DB)).accounts.any
            (fun a => a.id == x) = true := by
      intro x hx
      rw [any_id_congr hids]
      exact h x (List.mem_cons_of_mem _ hx)
    obtain ⟨s2, hrec, htx, hnext, hlog, hacc⟩ := ih _ hrest
    refine ⟨s2, ?_, ?_, ?_, ?_, ?_⟩
    · rw [reconcileAll, uab_eq s aid h0]
      exact hrec
    · exact htx
    · exact hnext
    · rw [hlog]
      simp
    · rw [hacc, List.map_map]
      apply List.map_congr_left
      intro a _
      by_cases h1 : a.id = aid
      · have hbeq : (a.id == aid) = true := beq_iff_eq.mpr h1
        by_cases h2 : a.id ∈ rest <;>
          simp [Function.comp, hbeq, h1, h2, List.mem_cons]
      · have hbeq : (a.id == aid) = false := by simpa using h1
        by_cases h2 : a.id ∈ rest <;>
          simp [Function.comp, hbeq, h1, h2, List.mem_cons]

theorem importLoop_spec (now : ℚ) (tds : List TransactionData) :
    ∀ (s : DB) (created : List Transaction) (affected : List String),
      (∀ td ∈ tds, s.accounts.any (fun a => a.id == td.account_id) = true) →
    ∃ ts aff1 s1, importLoop now s tds created affected = .ok (ts, aff1, s1) ∧
      s1.accounts.map (fun a => a.id) = s.accounts.map (fun a => a.id) ∧
      (∀ x, x ∈ aff1 ↔ x ∈ affected ∨ ∃ td ∈ tds, td.account_id = x) := by
  induction tds with
  | nil =>
    intro s created affected _
    exact ⟨created, affected, s, rfl, rfl, by simp⟩
  | cons td rest ih =>
    intro s created affected h
    obtain ⟨t, s2, hcr, hta, hids, htx, hlog, hnext⟩ :=
      create_transaction_eq now s td (h td (List.mem_cons_self _ _))
    have hrest : ∀ td2 ∈ rest, s2.accounts.any (fun a => a.id == td2.account_id) = true := by
      intro td2 h2
      rw [any_id_congr hids]
      exact h td2 (List.mem_cons_of_mem _ h2)
    obtain ⟨ts, aff1, s1, hloop, hids2, haff⟩ := ih s2 (created ++ [t])
      (if affected.contains t.account_id then affected else affected ++ [t.account_id]) hrest
    refine ⟨ts, aff1, s1, ?_, hids2.trans hids, ?_⟩
    · rw [importLoop, hcr]
      exact hloop
    · intro x
      rw [haff x]
      have hmem : x ∈ (if affected.contains t.account_id then affected
            else affected ++ [t.account_id]) ↔
          x ∈ affected ∨ x = td.account_id := by
        by_cases hc : affected.contains t.account_id = true
        · rw [if_pos hc]
          have hcmem : t.account_id ∈ affected := by
            rw [List.contains] at hc
            exact List.elem_iff.mp hc
          constructor
          · exact Or.inl
          · rintro (hx | rfl)
            · exact hx
            · rw [← hta]
              exact hcmem
        · rw [if_neg hc]
          simp [hta]
      rw [hmem]
      constructor
      · rintro ((hx | rfl) | ⟨td2, h2, rfl⟩)
        · exact Or.inl hx
        · exact Or.inr ⟨td, List.mem_cons_self _ _, rfl⟩
        · exact Or.inr ⟨td2, List.mem_cons_of_mem _ h2, rfl⟩
      · rintro (hx | ⟨td2, h2, rfl⟩)
        · exact Or.inl (Or.inl hx)
        · rcases List.mem_cons.mp h2 with h3 | h3
          · exact Or.inl (Or.inr (by rw [h3]))
          · exact Or.inr ⟨td2, h3, rfl⟩

/-! ## C2: moving a transaction between accounts -/

/-- Store for the C2 evaluation: account "acc-001" holds the single
transaction "t-1" of amount -50 (balance already reconciled to -50);
account "acc-002" is empty with balance 0. -/
def c2db : DB :=
  DB.mk [{ acct1 with balance := -50 }, acct2] [mkTx "t-1" "acc-001" 0 (-50)] [] 0

/-- C2 evaluation: updating "t-1" with payload `\x7baccount_id: "acc-002"\x7d`
reconciles ONLY "acc-002" (the reconcile log of the run is `["acc-002"]`):
the guard `transaction_data["account_id"] != transaction.account_id` compares
the payload against the row's already-updated account id, so it is always
false and the old account is never reconciled. Afterwards "acc-001" still has
stored balance -50 although the sum of its (zero) remaining transactions is 0 —
contradicting the claim that both accounts end up consistent. -/
theorem update_transaction_leaves_old_account_stale :
    (update_transaction 1 c2db "t-1" { account_id := some "acc-002" }).toOption.map
      (fun r => (r.2.reconcileLog,
        r.2.accounts.map (fun a => (a.id, a.balance)),
        sumFor r.2.transactions "acc-001")) =
    some (["acc-002"], [("acc-001", (-50 : ℚ)), ("acc-002", (-50 : ℚ))], 0) := by
  norm_num [update_transaction, get_transaction_by_id, applyTransactionPatch,
    update_account_balance, sumFor, c2db, acct1, acct2, mkTx, Except.toOption,
    List.find?, List.filter]
  decide

/-! ## C3: batch import -/

/-- Store for the C3 evaluation: one account, no transactions yet. -/
def c3db : DB := DB.mk [acct1] [] [] 0

/-- Batch for the C3 evaluation: two transactions for "acc-001". -/
def c3tds : List TransactionData :=
  [{ account_id := "acc-001", date := 0, amount := 10 },
   { account_id := "acc-001", date := 0, amount := 20 }]

/-- C3 counterexample: importing two transactions into "acc-001" runs balance
reconciliation three times (once inside each `create_transaction`, then once
more in the import's own loop over affected accounts), not exactly once for
the single distinct affected account. The final balance is nevertheless the
full sum 30. -/
theorem import_transactions_reconcile_count :
    (import_transactions 1 c3db c3tds).toOption.map
        (fun r => (r.2.reconcileLog, r.2.accounts.map (fun a => a.balance))) =
      some (["acc-001", "acc-001", "acc-001"], [30]) ∧
    ¬ (import_transactions 1 c3db c3tds).toOption.map (fun r => r.2.reconcileLog) =
      some ["acc-001"] := by
  constructor
  · norm_num [import_transactions, importLoop, reconcileAll, create_transaction,
      newTx, update_account_balance, sumFor, c3db, c3tds, acct1, Except.toOption,
      List.filter]
  · norm_num [import_transactions, importLoop, reconcileAll, create_transaction,
      newTx, update_account_balance, sumFor, c3db, c3tds, acct1, Except.toOption,
      List.filter]
    decide

/-- C3 (as amended): `import_transactions` applies `create` to every item and,
provided every referenced account exists, succeeds; the final stored balance
of every affected account equals the sum of the amounts of all that account's
transactions in the final store (no partial sum survives). Reconciliation,
however, runs once per created transaction plus once more per distinct
affected account — not exactly once per account. -/
theorem import_transactions_final_balances (now : ℚ) (s : DB) (tds : List TransactionData)
    (h : ∀ td ∈ tds, s.accounts.any (fun a => a.id == td.account_id) = true) :
    ∃ ts s2, import_transactions now s tds = .ok (ts, s2) ∧
      ∀ a ∈ s2.accounts, (∃ td ∈ tds, td.account_id = a.id) →
        a.balance = sumFor s2.transactions a.id := by
  obtain ⟨ts, aff1, s1, hloop, hids, haff⟩ := importLoop_spec now tds s [] [] h
  have hra : ∀ aid ∈ aff1, s1.accounts.any (fun a => a.id == aid) = true := by
    intro aid ha
    rcases (haff aid).mp ha with h0 | ⟨td, htd, h1⟩
    · simp at h0
    · rw [any_id_congr hids, ← h1]
      exact h td htd
  obtain ⟨s2, hrec, htx, _, _, hacc⟩ := reconcileAll_spec aff1 s1 hra
  refine ⟨ts, s2, ?_, ?_⟩
  · simp only [import_transactions, hloop, hrec]
  · intro a ha hex
    rw [hacc] at ha
    rcases List.mem_map.mp ha with ⟨a0, _, rfl⟩
    have hid : (if a0.id ∈ aff1
        then { a0 with balance := sumFor s1.transactions a0.id } else a0).id = a0.id := by
      by_cases hin : a0.id ∈ aff1 <;> simp [hin]
    rw [hid] at hex
    have hin : a0.id ∈ aff1 := (haff a0.id).mpr (Or.inr hex)
    rw [if_pos hin, htx]

/-- Witness for C3: the amended theorem applied to the two-transaction batch;
the one affected account ends with balance equal to the sum of its
transactions. -/
theorem import_transactions_final_balances_witness :
    (∀ td ∈ c3tds, c3db.accounts.any (fun a => a.id == td.account_id) = true) ∧
    ∃ ts s2, import_transactions 1 c3db c3tds = .ok (ts, s2) ∧
      ∀ a ∈ s2.accounts, (∃ td ∈ c3tds, td.account_id = a.id) →
        a.balance = sumFor s2.transactions a.id :=
  ⟨by decide, import_transactions_final_balances 1 c3db c3tds (by decide)⟩

/-! ## C6: substring search and `LIKE` semantics -/

theorem likeMatch_pct_nil (s : List Char) : likeMatch (['%'] : List Char) s = true := by
  induction s with
  | nil => simp [likeMatch]
  | cons c sr ih => simp [likeMatch, ih]

theorem likeMatch_pct_iff (p : List Char) (s : List Char) :
    likeMatch ('%' :: p) s = true ↔ ∃ n, likeMatch p (s.drop n) = true := by
  induction s with
  | nil =>
    constructor
    · intro h
      refine ⟨0, ?_⟩
      simpa [likeMatch] using h
    · rintro ⟨n, hn⟩
      simp only [List.drop_nil] at hn
      simpa [likeMatch] using hn
  | cons c sr ih =>
    constructor
    · intro h
      simp only [likeMatch, if_pos (by exact rfl : (('%' : Char) == '%') = true),
        Bool.or_eq_true] at h
      rcases h with h | h
      · exact ⟨0, h⟩
      · rcases ih.mp h with ⟨n, hn⟩
        exact ⟨n + 1, hn⟩
    · rintro ⟨n, hn⟩
      rcases n with _ | n
      · simp only [List.drop_zero] at hn
        simp [likeMatch, hn]
      · simp only [List.drop_succ_cons] at hn
        have := ih.mpr ⟨n, hn⟩
        simp [likeMatch, this]

theorem likeMatch_lit_pct (q : List Char) (hq : ∀ c ∈ q, c ≠ '%' ∧ c ≠ '_') :
    ∀ s, (likeMatch (q ++ ['%']) s = true ↔ q <+: s) := by
  induction q with
  | nil =>
    intro s
    simpa using likeMatch_pct_nil s
  | cons a q ih =>
    intro s
    have ha := hq a (List.mem_cons_self _ _)
    have ha1 : (a == '%') = false := by simpa using ha.1
    have ha2 : (a == '_') = false := by simpa using ha.2
    cases s with
    | nil => simp [likeMatch, ha1]
    | cons c sr =>
      have ihq := ih (fun c hc => hq c (List.mem_cons_of_mem _ hc)) sr
      rw [List.cons_append]
      simp only [likeMatch, ha1, ha2]
      simp [Bool.and_eq_true, beq_iff_eq, ihq, List.cons_prefix_cons]

theorem exists_prefix_drop_iff (q s : List Char) :
    (∃ n, q <+: s.drop n) ↔ q <:+: s := by
  constructor
  · rintro ⟨n, r, hr⟩
    refine ⟨s.take n, r, ?_⟩
    rw [List.append_assoc, hr, List.take_append_drop]
  · rintro ⟨l, r, hl⟩
    refine ⟨l.length, r, ?_⟩
    rw [← hl, List.append_assoc, List.drop_left]

theorem lowerStr_append (s t : String) : lowerStr (s ++ t) = lowerStr s ++ lowerStr t := by
  simp [lowerStr]

theorem ilike_pct_iff_substr (t q : String) (hq : ∀ c ∈ lowerStr q, c ≠ '%' ∧ c ≠ '_') :
    (ilike t ("%" ++ q ++ "%") = true ↔ lowerStr q <:+: lowerStr t) := by
  have hpat : lowerStr ("%" ++ q ++ "%") = '%' :: (lowerStr q ++ ['%']) := by
    rw [lowerStr_append, lowerStr_append]
    simp [lowerStr]
  rw [ilike, hpat, likeMatch_pct_iff]
  constructor
  · rintro ⟨n, hn⟩
    exact (exists_prefix_drop_iff _ _).mp ⟨n, (likeMatch_lit_pct _ hq _).mp hn⟩
  · intro h
    rcases (exists_prefix_drop_iff _ _).mpr h with ⟨n, hn⟩
    exact ⟨n, (likeMatch_lit_pct _ hq _).mpr hn⟩

/-- C6 (as amended): for every query string without `LIKE` wildcard characters
(no `%` and no `_` after case folding), `search_transactions` returns exactly
the transactions in which the query occurs case-insensitively as a substring
of the description, of the category (when present) or of the payee (when
present), ORed across the three fields. -/
theorem search_transactions_correct (s : DB) (q : String) (t : Transaction)
    (hq : ∀ c ∈ lowerStr q, c ≠ '%' ∧ c ≠ '_') :
    t ∈ search_transactions s q ↔
      t ∈ s.transactions ∧
      (lowerStr q <:+: lowerStr t.description ∨
       (∃ c, t.category = some c ∧ lowerStr q <:+: lowerStr c) ∨
       (∃ v, t.payee = some v ∧ lowerStr q <:+: lowerStr v)) := by
  rw [search_transactions, mem_sortDesc, List.mem_filter]
  refine and_congr_right fun _ => ?_
  simp only [Bool.or_eq_true]
  rw [or_assoc]
  refine or_congr (ilike_pct_iff_substr _ _ hq) (or_congr ?_ ?_)
  · cases hcat : t.category with
    | none => simp
    | some c => simp [ilike_pct_iff_substr c q hq]
  · cases hp : t.payee with
    | none => simp
    | some v => simp [ilike_pct_iff_substr v q hq]

/-- The transaction of the C6 counterexample: description "abc", empty
category, no payee. -/
def c6tx : Transaction := { mkTx "t-1" "acc-001" 0 5 with description := "abc" }

/-- The store of the C6 counterexample. -/
def c6db : DB := DB.mk [acct1] [c6tx] [] 0

/-- C6 counterexample: searching for the one-character query "_" returns the
transaction with description "abc" (SQL `LIKE` treats `_` as a single-character
wildcard), although "_" does not occur as a substring of "abc", of the empty
category, or of the (absent) payee — so search is not substring matching for
every query string. -/
theorem search_transactions_wildcard_counterexample :
    c6tx ∈ search_transactions c6db "_" ∧
    ¬ lowerStr "_" <:+: lowerStr "abc" ∧
    c6tx.category = some "" ∧
    ¬ lowerStr "_" <:+: lowerStr "" ∧
    c6tx.payee = none := by
  refine ⟨?_, by decide, by decide, by decide, by decide⟩
  simp [search_transactions, c6db, c6tx, mkTx, ilike, lowerStr, likeMatch,
    sortDesc, insertDesc, List.filter]

/-- The transaction of the spec's search example, payee "Test Payee
UNIQUE123". -/
def c6wtx : Transaction :=
  { mkTx "t-2" "acc-001" 0 5 with
    payee := some "Test Payee UNIQUE123"
    description := "x"
    category := none }

/-- The store of the spec's search example. -/
def c6wdb : DB := DB.mk [acct1] [c6wtx] [] 0

/-- Witness for C6: the query "unique123" has no wildcard characters, the
amended theorem applies, and the transaction with payee "Test Payee UNIQUE123"
is indeed found. -/
theorem search_transactions_correct_witness :
    (∀ c ∈ lowerStr "unique123", c ≠ '%' ∧ c ≠ '_') ∧
    (c6wtx ∈ search_transactions c6wdb "unique123" ↔
      c6wtx ∈ c6wdb.transactions ∧
      (lowerStr "unique123" <:+: lowerStr c6wtx.description ∨
       (∃ c, c6wtx.category = some c ∧ lowerStr "unique123" <:+: lowerStr c) ∨
       (∃ v, c6wtx.payee = some v ∧ lowerStr "unique123" <:+: lowerStr v))) ∧
    c6wtx ∈ search_transactions c6wdb "unique123" := by
  refine ⟨by decide, search_transactions_correct c6wdb "unique123" c6wtx (by decide), ?_⟩
  simp [search_transactions, c6wdb, c6wtx, mkTx, ilike, lowerStr, likeMatch,
    sortDesc, insertDesc, List.filter]

/-! ## C9: monthly summary -/

/-- The month window exactly as the code computes it: account filter, then
first-of-month midnight through `datetime(year, month+1, 1) -
timedelta(days=1)`, i.e. midnight on the last day of the month, inclusive. -/
def inWindow (y m : Int) (acc : Option String) (t : Transaction) : Bool :=
  optCheck acc (fun v => t.account_id == v) &&
  decide (((daysFromCivil y m 1 : ℤ) : ℚ) ≤ t.date) &&
  decide (t.date ≤
    ((daysFromCivil (if m = 12 then y + 1 else y) (if m = 12 then 1 else m + 1) 1 : ℤ) : ℚ) - 1)

/-- The transactions the monthly summary aggregates over. -/
def monthTransactions (y m : Int) (acc : Option String) (s : DB) : List Transaction :=
  s.transactions.filter (inWindow y m acc)

theorem matchesFilter_month (y m : Int) (acc : Option String) (t : Transaction) :
    matchesFilter
      { account_id := acc
        start_date := some ((daysFromCivil y m 1 : ℤ) : ℚ)
        end_date := some (((daysFromCivil (if m = 12 then y + 1 else y)
          (if m = 12 then 1 else m + 1) 1 : ℤ) : ℚ) - 1) } t = inWindow y m acc t := by
  cases acc <;>
    simp [matchesFilter, inWindow, optCheck, Bool.and_true, Bool.true_and, Bool.and_assoc]

theorem sumLoop_fst (l : List Transaction) :
    ∀ inc exp ib eb, (sumLoop (inc, exp, ib, eb) l).1 =
      inc + ((l.filter (fun t => decide (0 < t.amount))).map (fun t => t.amount)).sum := by
  induction l with
  | nil => intro inc exp ib eb; simp [sumLoop]
  | cons t rest ih =>
    intro inc exp ib eb
    by_cases h : 0 < t.amount
    · simp [sumLoop, h, ih, List.filter_cons, add_assoc]
    · simp [sumLoop, h, ih, List.filter_cons]

theorem sumLoop_snd (l : List Transaction) :
    ∀ inc exp ib eb, (sumLoop (inc, exp, ib, eb) l).2.1 =
      exp + ((l.filter (fun t => decide (t.amount ≤ 0))).map (fun t => |t.amount|)).sum := by
  induction l with
  | nil => intro inc exp ib eb; simp [sumLoop]
  | cons t rest ih =>
    intro inc exp ib eb
    by_cases h : 0 < t.amount
    · simp [sumLoop, h, ih, List.filter_cons, not_le.mpr h]
    · simp [sumLoop, h, ih, List.filter_cons, not_lt.mp h, add_assoc]

theorem sum_abs_nonpos_eq_neg (l : List Transaction) :
    ((l.filter (fun t => decide (t.amount ≤ 0))).map (fun t => |t.amount|)).sum =
    ((l.filter (fun t => decide (t.amount < 0))).map (fun t => |t.amount|)).sum := by
  induction l with
  | nil => rfl
  | cons t rest ih =>
    rcases lt_trichotomy t.amount 0 with h | h | h
    · simp [List.filter_cons, le_of_lt h, h, ih]
    · simp [List.filter_cons, h, ih]
    · simp [List.filter_cons, not_le.mpr h, not_lt.mpr (le_of_lt h), ih]

/-- A rational is an exact number of cents. Monetary amounts in the claims are
cent-valued; Python `round(x, 2)` is the identity on them. -/
def isCents (q : ℚ) : Prop := ∃ k : ℤ, q = (k : ℚ) / 100

theorem isCents_sum {l : List ℚ} (h : ∀ x ∈ l, isCents x) : isCents l.sum := by
  induction l with
  | nil => exact ⟨0, by norm_num⟩
  | cons a l ih =>
    obtain ⟨k1, hk1⟩ := h a (List.mem_cons_self _ _)
    obtain ⟨k2, hk2⟩ := ih fun x hx => h x (List.mem_cons_of_mem _ hx)
    refine ⟨k1 + k2, ?_⟩
    rw [List.sum_cons, hk1, hk2]
    push_cast
    ring

theorem isCents_abs {q : ℚ} (h : isCents q) : isCents |q| := by
  obtain ⟨k, rfl⟩ := h
  refine ⟨|k|, ?_⟩
  rw [Int.cast_abs, abs_div]
  norm_num

theorem isCents_sub {a b : ℚ} (ha : isCents a) (hb : isCents b) : isCents (a - b) := by
  obtain ⟨k1, rfl⟩ := ha
  obtain ⟨k2, rfl⟩ := hb
  refine ⟨k1 - k2, ?_⟩
  push_cast
  ring

theorem round2_cents {q : ℚ} (h : isCents q) : round2 q = q := by
  obtain ⟨k, rfl⟩ := h
  rw [round2, div_mul_cancel₀ _ (by norm_num : (100 : ℚ) ≠ 0), round_intCast]

/-- C9 (as amended): for a valid year/month and cent-valued amounts,
`get_monthly_summary` reports income equal to the sum of the positive amounts
of the transactions in the code's month window (`monthTransactions`: first of
the month at midnight through MIDNIGHT on the last day), expenses equal to
the sum of the absolute values of the negative amounts there, net change equal
to income minus expenses, and top category lists sorted descending by amount
with at most 5 entries per side. -/
theorem get_monthly_summary_spec (y m : Int) (acc : Option String) (s : DB)
    (h1 : 1 ≤ y) (h2 : y ≤ 9999) (h3 : 1 ≤ m) (h4 : m ≤ 12)
    (h5 : m = 12 → y ≤ 9998)
    (hc : ∀ t ∈ s.transactions, isCents t.amount) :
    (get_monthly_summary y m acc s).year = y ∧
    (get_monthly_summary y m acc s).month = m ∧
    (get_monthly_summary y m acc s).income =
      (((monthTransactions y m acc s).filter (fun t => decide (0 < t.amount))).map
        (fun t => t.amount)).sum ∧
    (get_monthly_summary y m acc s).expenses =
      (((monthTransactions y m acc s).filter (fun t => decide (t.amount < 0))).map
        (fun t => |t.amount|)).sum ∧
    (get_monthly_summary y m acc s).net_change =
      (get_monthly_summary y m acc s).income - (get_monthly_summary y m acc s).expenses ∧
    (get_monthly_summary y m acc s).top_income_categories.Pairwise
      (fun a b => b.amount ≤ a.amount) ∧
    (get_monthly_summary y m acc s).top_expense_categories.Pairwise
      (fun a b => b.amount ≤ a.amount) ∧
    (get_monthly_summary y m acc s).top_income_categories.length ≤ 5 ∧
    (get_monthly_summary y m acc s).top_expense_categories.length ≤ 5 := by
  have c2 : (if m = 12 then y + 1 else y) ≤ 9999 := by
    by_cases hm : m = 12
    · rw [if_pos hm]
      have := h5 hm
      omega
    · rw [if_neg hm]
      exact h2
  have hok : get_monthly_summary y m acc s = monthSummaryBody y m acc s := by
    simp only [get_monthly_summary, monthlySummaryCore, if_pos (⟨h1, h2, h3, h4⟩ :
      1 ≤ y ∧ y ≤ 9999 ∧ 1 ≤ m ∧ m ≤ 12), if_pos c2]
  have hfe : s.transactions.filter (matchesFilter
      { account_id := acc
        start_date := some ((daysFromCivil y m 1 : ℤ) : ℚ)
        end_date := some (((daysFromCivil (if m = 12 then y + 1 else y)
          (if m = 12 then 1 else m + 1) 1 : ℤ) : ℚ) - 1) }) =
      monthTransactions y m acc s := by
    rw [monthTransactions]
    exact List.filter_congr (fun t _ => matchesFilter_month y m acc t)
  have hperm : List.Perm (filter_transactions s
      { account_id := acc
        start_date := some ((daysFromCivil y m 1 : ℤ) : ℚ)
        end_date := some (((daysFromCivil (if m = 12 then y + 1 else y)
          (if m = 12 then 1 else m + 1) 1 : ℤ) : ℚ) - 1) })
      (monthTransactions y m acc s) := by
    rw [← hfe]
    exact sortDesc_perm _ _
  have hsub : ∀ t ∈ monthTransactions y m acc s, isCents t.amount := by
    intro t ht
    exact hc t (List.mem_of_mem_filter ht)
  have hIinc : (((filter_transactions s
      { account_id := acc
        start_date := some ((daysFromCivil y m 1 : ℤ) : ℚ)
        end_date := some (((daysFromCivil (if m = 12 then y + 1 else y)
          (if m = 12 then 1 else m + 1) 1 : ℤ) : ℚ) - 1) }).filter
        (fun t => decide (0 < t.amount))).map (fun t => t.amount)).sum =
      (((monthTransactions y m acc s).filter (fun t => decide (0 < t.amount))).map
        (fun t => t.amount)).sum :=
    ((hperm.filter _).map _).sum_eq
  have hIexp : (((filter_transactions s
      { account_id := acc
        start_date := some ((daysFromCivil y m 1 : ℤ) : ℚ)
        end_date := some (((daysFromCivil (if m = 12 then y + 1 else y)
          (if m = 12 then 1 else m + 1) 1 : ℤ) : ℚ) - 1) }).filter
        (fun t => decide (t.amount ≤ 0))).map (fun t => |t.amount|)).sum =
      (((monthTransactions y m acc s).filter (fun t => decide (t.amount < 0))).map
        (fun t => |t.amount|)).sum := by
    rw [((hperm.filter _).map _).sum_eq]
    exact sum_abs_nonpos_eq_neg _
  have hcinc : isCents (((monthTransactions y m acc s).filter
      (fun t => decide (0 < t.amount))).map (fun t => t.amount)).sum := by
    refine isCents_sum ?_
    intro x hx
    rcases List.mem_map.mp hx with ⟨t, ht, rfl⟩
    exact hsub t (List.mem_of_mem_filter ht)
  have hcexp : isCents (((monthTransactions y m acc s).filter
      (fun t => decide (t.amount < 0))).map (fun t => |t.amount|)).sum := by
    refine isCents_sum ?_
    intro x hx
    rcases List.mem_map.mp hx with ⟨t, ht, rfl⟩
    exact isCents_abs (hsub t (List.mem_of_mem_filter ht))
  have hinc : (get_monthly_summary y m acc s).income =
      (((monthTransactions y m acc s).filter (fun t => decide (0 < t.amount))).map
        (fun t => t.amount)).sum := by
    rw [hok]
    simp only [monthSummaryBody]
    rw [sumLoop_fst, zero_add, hIinc, round2_cents hcinc]
  have hexp : (get_monthly_summary y m acc s).expenses =
      (((monthTransactions y m acc s).filter (fun t => decide (t.amount < 0))).map
        (fun t => |t.amount|)).sum := by
    rw [hok]
    simp only [monthSummaryBody]
    rw [sumLoop_snd, zero_add, hIexp, round2_cents hcexp]
  refine ⟨by rw [hok]; simp [monthSummaryBody], by rw [hok]; simp [monthSummaryBody],
    hinc, hexp, ?_, ?_, ?_, ?_, ?_⟩
  · rw [hinc, hexp, hok]
    show (monthSummaryBody y m acc s).net_change = _
    simp only [monthSummaryBody]
    rw [sumLoop_fst, sumLoop_snd, zero_add, zero_add, hIinc, hIexp,
      round2_cents (isCents_sub hcinc hcexp)]
  · rw [hok]
    simp only [monthSummaryBody]
    exact List.Pairwise.sublist (List.take_sublist _ _) (pairwise_sortDesc _ _)
  · rw [hok]
    simp only [monthSummaryBody]
    exact List.Pairwise.sublist (List.take_sublist _ _) (pairwise_sortDesc _ _)
  · rw [hok]
    simp only [monthSummaryBody]
    exact List.length_take_le _ _
  · rw [hok]
    simp only [monthSummaryBody]
    exact List.length_take_le _ _

/-- The transaction of the C9 counterexample: +500 at NOON on April 30 2025,
i.e. inside the calendar month but after the window's endpoint (midnight on
April 30). -/
def c9tx : Transaction :=
  mkTx "t-b" "acc-001" (((daysFromCivil 2025 4 30 : ℤ) : ℚ) + 1 / 2) 500

/-- The store of the C9 counterexample. -/
def c9db : DB := DB.mk [acct1] [c9tx] [] 0

/-- C9 counterexample: a +500 transaction dated April 30 2025 at noon lies
within the calendar month (on or after April 1, strictly before May 1), yet
`get_monthly_summary` for April 2025 reports income 0 — the window ends at
MIDNIGHT on the last day (`datetime(year, month+1, 1) - timedelta(days=1)`),
so the claim "income equals the sum of the positive amounts of the month's
transactions" fails. -/
theorem monthly_summary_misses_last_day :
    (get_monthly_summary 2025 4 none c9db).income = 0 ∧
    ((daysFromCivil 2025 4 1 : ℤ) : ℚ) ≤ c9tx.date ∧
    c9tx.date < ((daysFromCivil 2025 5 1 : ℤ) : ℚ) ∧
    c9tx.amount = 500 := by
  have d1 : daysFromCivil 2025 4 1 = 20179 := by decide
  have d30 : daysFromCivil 2025 4 30 = 20208 := by decide
  have dm : daysFromCivil 2025 5 1 = 20209 := by decide
  refine ⟨?_, ?_, ?_, by norm_num [c9tx, mkTx]⟩
  · norm_num [get_monthly_summary, monthlySummaryCore, monthSummaryBody,
      filter_transactions, matchesFilter, optCheck, sumLoop, sortDesc,
      insertDesc, c9db, c9tx, mkTx, acct1, d1, d30, dm, round2, List.filter]
  · norm_num [c9tx, mkTx, d1, d30]
  · norm_num [c9tx, mkTx, d30, dm]

/-- The store of the spec's monthly-summary example: one +500 income
transaction ("Salary") and two expense transactions -25 ("Food") and
-45.67 ("Gas"), all mid-April 2025. -/
def c9wdb : DB :=
  DB.mk [acct1]
    [{ mkTx "t-i" "acc-001" ((daysFromCivil 2025 4 13 : ℤ) : ℚ) 500 with
        category := some "Salary" },
     { mkTx "t-e1" "acc-001" ((daysFromCivil 2025 4 14 : ℤ) : ℚ) (-25) with
        category := some "Food" },
     { mkTx "t-e2" "acc-001" ((daysFromCivil 2025 4 15 : ℤ) : ℚ) (-45.67) with
        category := some "Gas" }]
    [] 0

/-- Witness for C9: the amended theorem applied to the spec's example month,
plus the concrete spec numbers: income 500, expenses 70.67, net change 429.33,
and top expense categories [Gas 45.67, Food 25] sorted descending. -/
theorem get_monthly_summary_spec_witness :
    ((1 : Int) ≤ 2025 ∧ (2025 : Int) ≤ 9999 ∧ (1 : Int) ≤ 4 ∧ (4 : Int) ≤ 12 ∧
      ((4 : Int) = 12 → (2025 : Int) ≤ 9998) ∧
      (∀ t ∈ c9wdb.transactions, isCents t.amount)) ∧
    ((get_monthly_summary 2025 4 none c9wdb).year = 2025 ∧
     (get_monthly_summary 2025 4 none c9wdb).month = 4 ∧
     (get_monthly_summary 2025 4 none c9wdb).income =
       (((monthTransactions 2025 4 none c9wdb).filter (fun t => decide (0 < t.amount))).map
         (fun t => t.amount)).sum ∧
     (get_monthly_summary 2025 4 none c9wdb).expenses =
       (((monthTransactions 2025 4 none c9wdb).filter (fun t => decide (t.amount < 0))).map
         (fun t => |t.amount|)).sum ∧
     (get_monthly_summary 2025 4 none c9wdb).net_change =
       (get_monthly_summary 2025 4 none c9wdb).income -
         (get_monthly_summary 2025 4 none c9wdb).expenses ∧
     (get_monthly_summary 2025 4 none c9wdb).top_income_categories.Pairwise
       (fun a b => b.amount ≤ a.amount) ∧
     (get_monthly_summary 2025 4 none c9wdb).top_expense_categories.Pairwise
       (fun a b => b.amount ≤ a.amount) ∧
     (get_monthly_summary 2025 4 none c9wdb).top_income_categories.length ≤ 5 ∧
     (get_monthly_summary 2025 4 none c9wdb).top_expense_categories.length ≤ 5) ∧
    (get_monthly_summary 2025 4 none c9wdb).income = 500 ∧
    (get_monthly_summary 2025 4 none c9wdb).expenses = 70.67 ∧
    (get_monthly_summary 2025 4 none c9wdb).net_change = 429.33 ∧
    (get_monthly_summary 2025 4 none c9wdb).top_expense_categories.map
      (fun e => (e.category, e.amount)) = [("Gas", (45.67 : ℚ)), ("Food", (25 : ℚ))] := by
  have hcents : ∀ t ∈ c9wdb.transactions, isCents t.amount := by
    intro t ht
    simp only [c9wdb, List.mem_cons, List.not_mem_nil, or_false] at ht
    rcases ht with rfl | rfl | rfl
    · exact ⟨50000, by norm_num [mkTx]⟩
    · exact ⟨-2500, by norm_num [mkTx]⟩
    · exact ⟨-4567, by norm_num [mkTx]⟩
  have d1 : daysFromCivil 2025 4 1 = 20179 := by decide
  have d13 : daysFromCivil 2025 4 13 = 20191 := by decide
  have d14 : daysFromCivil 2025 4 14 = 20192 := by decide
  have d15 : daysFromCivil 2025 4 15 = 20193 := by decide
  have dm : daysFromCivil 2025 5 1 = 20209 := by decide
  refine ⟨⟨by norm_num, by norm_num, by norm_num, by norm_num, by norm_num, hcents⟩,
    get_monthly_summary_spec 2025 4 none c9wdb (by norm_num) (by norm_num)
      (by norm_num) (by norm_num) (by norm_num) hcents, ?_, ?_, ?_, ?_⟩ <;>
    norm_num [get_monthly_summary, monthlySummaryCore, monthSummaryBody,
      filter_transactions, matchesFilter, optCheck, sumLoop, sortDesc,
      insertDesc, mkEntries, addToBucket, bucketKey, c9wdb, mkTx, acct1,
      d1, d13, d14, d15, dm, round2, abs_neg, abs_of_pos, round_ofNat,
      List.filter, show ("Gas" : String) ≠ "" by decide,
      show ("Food" : String) ≠ "" by decide,
      show ("Salary" : String) ≠ "" by decide,
      show ("Gas" : String) ≠ "Food" by decide,
      show ("Food" : String) ≠ "Gas" by decide]

/-! ## C10: the monthly summary never raises -/

/-- C10: `get_monthly_summary` is a total function: for every input it either
returns the record computed by the `try` block (`monthlySummaryCore` succeeds),
or — whenever any error occurs in the `try` block — the defaulted summary
echoing the requested year and month with income 0, expenses 0, net change 0
and empty top-category lists. No exception propagates to the caller. -/
theorem get_monthly_summary_never_raises (y m : Int) (acc : Option String) (s : DB) :
    (∃ r, monthlySummaryCore y m acc s = .ok r ∧ get_monthly_summary y m acc s = r) ∨
    ((∃ e, monthlySummaryCore y m acc s = .error e) ∧
      get_monthly_summary y m acc s =
        { year := y, month := m, income := 0, expenses := 0, net_change := 0,
          top_income_categories := [], top_expense_categories := [] }) := by
  cases h : monthlySummaryCore y m acc s with
  | ok r => exact Or.inl ⟨r, rfl, by simp [get_monthly_summary, h]⟩
  | error e => exact Or.inr ⟨⟨e, rfl⟩, by simp [get_monthly_summary, h]⟩

end WealthTrackr
